import Mathlib

/-!
Verification development for the TitanChessEngine browser extension
(position-monitoring and analysis-orchestration subsystem).

The definitions below are a shallow embedding of the JavaScript sources:
- `src/content/engine.js` (second, current module: config tables, `setElo`,
  `analyze`, `preAnalyze`, `showMove`, `startAnalyzeWatchdog`, the worker
  `onmessage` bestmove branch);
- `src/unnamed/part_000` (the `monitor` polling loop and the canvas
  `clearArrows`);
- `src/engine/engine-manager.js` (`getEloConfig`).

Shared mutable state (`window.TitanState`) becomes the record `TitanState`;
`postMessage` calls and console warnings become an emitted effect list
(`Eff`); the worker's FIFO response channel is modelled by the ghost fields
`inflight` / `lastSeq` / `nextSeq` / `displayedSeq`, which tag each issued
search with a fresh sequence number and deliver bestmove responses oldest
first.  DOM-only fields of the state object (canvas, board element, mutation
observer, castling trackers, widget) are elided: no claim mentions them and
the modelled code never branches on them.
-/

/-- One entry of `ELO_CONFIG` / `COMBAT_CONFIG` in `src/content/engine.js`
(lines 384-419).  `movetime` is `none` when the key is absent in the object
literal; `errorRate` keeps the source's decimal literals as rationals. -/
structure EloCfg where
  skillLevel : Nat := 0
  depth : Nat := 0
  uciElo : Nat := 0
  errorRate : Rat := 0
  movetime : Option Nat := none
  unlimited : Bool := false
deriving Repr, DecidableEq, Inhabited

/-- `ELO_CONFIG` from `src/content/engine.js` lines 384-399 (normal mode),
as an association list mirroring the JS object literal. -/
def ELO_CONFIG : List (String × EloCfg) :=
  [ ("1000", { skillLevel := 1,  depth := 5,  uciElo := 800,  errorRate := 0.30 }),
    ("1200", { skillLevel := 3,  depth := 7,  uciElo := 1100, errorRate := 0.22 }),
    ("1300", { skillLevel := 5,  depth := 8,  uciElo := 1250, errorRate := 0.18 }),
    ("1400", { skillLevel := 7,  depth := 9,  uciElo := 1350, errorRate := 0.14 }),
    ("1500", { skillLevel := 9,  depth := 10, uciElo := 1450, errorRate := 0.10 }),
    ("1600", { skillLevel := 11, depth := 11, uciElo := 1550, errorRate := 0.08 }),
    ("1700", { skillLevel := 13, depth := 12, uciElo := 1650, errorRate := 0.06 }),
    ("1800", { skillLevel := 15, depth := 13, uciElo := 1750, errorRate := 0.04 }),
    ("1900", { skillLevel := 17, depth := 14, uciElo := 1850, errorRate := 0.03 }),
    ("2000", { skillLevel := 18, depth := 16, uciElo := 2000, errorRate := 0.02 }),
    ("2200", { skillLevel := 19, depth := 18, uciElo := 2200, errorRate := 0.01 }),
    ("2500", { skillLevel := 20, depth := 20, uciElo := 2500, errorRate := 0.005, movetime := some 5000 }),
    ("2800", { skillLevel := 20, depth := 20, uciElo := 2800, errorRate := 0.0,   movetime := some 6000 }),
    ("3000", { skillLevel := 20, depth := 22, uciElo := 3000, errorRate := 0.0, movetime := some 3000, unlimited := true }) ]

/-- `COMBAT_CONFIG` from `src/content/engine.js` lines 404-419 (combat mode). -/
def COMBAT_CONFIG : List (String × EloCfg) :=
  [ ("1000", { skillLevel := 3,  depth := 10, uciElo := 1100, errorRate := 0.15 }),
    ("1200", { skillLevel := 6,  depth := 12, uciElo := 1350, errorRate := 0.12 }),
    ("1300", { skillLevel := 9,  depth := 14, uciElo := 1450, errorRate := 0.10 }),
    ("1400", { skillLevel := 12, depth := 16, uciElo := 1550, errorRate := 0.08 }),
    ("1500", { skillLevel := 15, depth := 18, uciElo := 1650, errorRate := 0.06 }),
    ("1600", { skillLevel := 17, depth := 20, uciElo := 1750, errorRate := 0.04 }),
    ("1700", { skillLevel := 18, depth := 22, uciElo := 1850, errorRate := 0.03 }),
    ("1800", { skillLevel := 19, depth := 24, uciElo := 1950, errorRate := 0.02 }),
    ("1900", { skillLevel := 20, depth := 26, uciElo := 2100, errorRate := 0.01 }),
    ("2000", { skillLevel := 20, depth := 28, uciElo := 2300, errorRate := 0.005 }),
    ("2200", { skillLevel := 20, depth := 30, uciElo := 2500, errorRate := 0.0 }),
    ("2500", { skillLevel := 20, depth := 32, uciElo := 2800, errorRate := 0.0,   movetime := some 8000 }),
    ("2800", { skillLevel := 20, depth := 24, uciElo := 3000, errorRate := 0.0,   movetime := some 10000 }),
    ("3000", { skillLevel := 20, depth := 25, uciElo := 3200, errorRate := 0.0, movetime := some 5000, unlimited := true }) ]

/-- `T.combatMode ? COMBAT_CONFIG : ELO_CONFIG` — the table every lookup in
`engine.js` selects by the combat-mode flag. -/
def configTable (combat : Bool) : List (String × EloCfg) :=
  if combat then COMBAT_CONFIG else ELO_CONFIG

/-- JavaScript truthiness of an optional numeric field: `undefined` and `0`
are falsy.  Used for the checks `cfg.movetime ? ... : ...` in
`startAnalyzeWatchdog` and `analyze`. -/
def jsTruthy : Option Nat → Bool
  | some n => n != 0
  | none => false

/-- `configTable[elo] || configTable['1000']` — the lookup-with-fallback
used by `setElo`, `analyze`, `preAnalyze` and `startAnalyzeWatchdog` in
`src/content/engine.js`.  The innermost default is unreachable because both
tables bind the key `"1000"`. -/
def lookupCfg (combat : Bool) (elo : String) : EloCfg :=
  match (configTable combat).lookup elo with
  | some c => c
  | none =>
    match (configTable combat).lookup "1000" with
    | some c => c
    | none => {}

/-- One entry of the table inside `getEloConfig` in
`src/engine/engine-manager.js` (lines 54-60). -/
structure EmCfg where
  skillLevel : Nat := 0
  depth : Nat := 0
  uciElo : Nat := 0
deriving Repr, DecidableEq, Inhabited

/-- The `configs` object literal of `getEloConfig`
(`src/engine/engine-manager.js` lines 54-60). -/
def emConfigs : List (String × EmCfg) :=
  [ ("1000", { skillLevel := 1,  depth := 8,  uciElo := 1000 }),
    ("1200", { skillLevel := 4,  depth := 10, uciElo := 1200 }),
    ("1300", { skillLevel := 7,  depth := 12, uciElo := 1300 }),
    ("1400", { skillLevel := 10, depth := 14, uciElo := 1400 }),
    ("1500", { skillLevel := 13, depth := 16, uciElo := 1500 }) ]

/-- `getEloConfig(elo)` from `src/engine/engine-manager.js` lines 53-62:
`return configs[elo] || configs['1000']`. -/
def getEloConfig (elo : String) : EmCfg :=
  match emConfigs.lookup elo with
  | some c => c
  | none =>
    match emConfigs.lookup "1000" with
    | some c => c
    | none => {}

/-- The timeout computation of `startAnalyzeWatchdog`
(`src/content/engine.js` lines 431-439), as a function of one resolved
config entry:
`cfg.movetime ? cfg.movetime + 5000 : 15000 + Math.max(0, cfg.depth - 10) * 1500`. -/
def watchdogTimeoutOf (cfg : EloCfg) : Nat :=
  if jsTruthy cfg.movetime then cfg.movetime.getD 0 + 5000
  else 15000 + max 0 (cfg.depth - 10) * 1500

/-- The watchdog duration armed for the active profile: the config is
resolved exactly as `startAnalyzeWatchdog` resolves it. -/
def watchdogTimeout (combat : Bool) (elo : String) : Nat :=
  watchdogTimeoutOf (lookupCfg combat elo)

/-- Modelled from the spec's words (claim C5), for comparison with the
source computation `watchdogTimeoutOf`: if the profile specifies a movetime
cap, duration is the cap plus a fixed 5000 ms margin; otherwise the base
timeout of 15000 ms plus 1500 ms per depth level above 10, floored at the
base timeout. -/
def specWatchdogDurationOf (cfg : EloCfg) : Nat :=
  match cfg.movetime with
  | some t => t + 5000
  | none => Int.toNat (max 15000 (15000 + ((cfg.depth : Int) - 10) * 1500))

/-- Spec-side watchdog duration for a level and mode (claim C5). -/
def specWatchdogDuration (combat : Bool) (elo : String) : Nat :=
  specWatchdogDurationOf (lookupCfg combat elo)

theorem lookup_mem_snd {α β : Type} [BEq α] {l : List (α × β)} {k : α} {c : β}
    (h : l.lookup k = some c) : c ∈ l.map Prod.snd := by
  induction l with
  | nil => simp [List.lookup] at h
  | cons p t ih =>
    rw [List.lookup] at h
    by_cases hb : (k == p.1) = true
    · simp [hb] at h
      simp [← h]
    · simp [hb] at h
      simp [ih h]

theorem lookupCfg_mem (combat : Bool) (elo : String) :
    lookupCfg combat elo ∈ (configTable combat).map Prod.snd := by
  unfold lookupCfg
  cases h : (configTable combat).lookup elo with
  | some c => exact lookup_mem_snd h
  | none =>
    cases h2 : (configTable combat).lookup "1000" with
    | some c => exact lookup_mem_snd h2
    | none =>
      exfalso
      cases combat <;> simp [configTable, ELO_CONFIG, COMBAT_CONFIG, List.lookup] at h2

/-- Observable effects of the orchestration code: messages posted to the
stockfish worker (`postMessage`), the non-fatal console warning of the
watchdog, canvas clearing (`ctx.clearRect` inside `clearArrows`), and a
redraw request (`D.draw(true)`).  `go d m` stands for the string
`go depth d` when `m = none` and `go depth d movetime t` when `m = some t`. -/
inductive Eff where
  | stop
  | ucinewgame
  | fenPos (fen : String)
  | go (depth : Nat) (movetime : Option Nat)
  | warn
  | clearCanvas
  | draw
deriving Repr, DecidableEq

/-- The shared runtime state `window.TitanState` (`src/content/state.js`),
restricted to the fields the modelled code reads or writes, together with a
model of the worker's response channel.

Ghost channel fields (not in the JS object):
- `inflight`: sequence numbers of searches sent to the worker whose
  bestmove responses have not yet been delivered, oldest first (one
  bestmove per issued `go`; an aborted search still answers, early);
- `lastSeq` / `nextSeq`: the most recently issued request's sequence
  number and the counter for fresh ones;
- `displayedSeq`: which request's move the currently displayed arrow
  came from (set when `showMove` runs from the bestmove handler). -/
structure TitanState where
  engineReady : Bool := false
  hasWorker : Bool := false
  analyzing : Bool := false
  ignoreNextBestmove : Nat := 0
  watchdog : Option Nat := none
  currentFen : String := ""
  previousFen : String := ""
  arrows : List String := []
  pendingArrows : List String := []
  moveQueue : List String := []
  queueMode : Bool := false
  combatMode : Bool := false
  currentElo : String := "1000"
  forceRedraw : Bool := false
  inflight : List Nat := []
  lastSeq : Nat := 0
  nextSeq : Nat := 1
  displayedSeq : Option Nat := none
deriving Repr, DecidableEq

/-- `window.TitanState` as initialized by `src/content/state.js`. -/
def initState : TitanState := {}

/-- The `if (T.analyzing) { postMessage('stop'); ignoreNextBestmove++;
T.pendingArrows = []; T.arrows = []; }` prologue shared verbatim by
`analyze` (lines 619-624) and `preAnalyze` (lines 681-686). -/
def abortIfBusy (s : TitanState) : TitanState × List Eff :=
  if s.analyzing then
    ({ s with ignoreNextBestmove := s.ignoreNextBestmove + 1,
              pendingArrows := [], arrows := [] }, [Eff.stop])
  else (s, [])

/-- The common tail of `analyze` / `preAnalyze`: set `analyzing`, arm the
watchdog (`startAnalyzeWatchdog`), post the position and the given go
command.  Issuing a search appends a fresh sequence number to the worker
channel. -/
def issueSearch (s : TitanState) (fen : String) (goDepth : Nat)
    (goMovetime : Option Nat) : TitanState × List Eff :=
  let r := abortIfBusy s
  let s1 := r.1
  let s2 := { s1 with
    analyzing := true,
    watchdog := some (watchdogTimeout s1.combatMode s1.currentElo),
    inflight := s1.inflight ++ [s1.nextSeq],
    lastSeq := s1.nextSeq,
    nextSeq := s1.nextSeq + 1 }
  (s2, r.2 ++ [Eff.fenPos fen, Eff.go goDepth goMovetime])

/-- `analyze(fen)` from `src/content/engine.js` lines 617-639.  Guard:
`if (!T.engineReady || !T.stockfishWorker) return;`.  The go command is
`go depth D movetime M` when the active config's movetime is truthy and
`go depth D` otherwise; no `ucinewgame` is sent. -/
def analyze (s : TitanState) (fen : String) : TitanState × List Eff :=
  if s.engineReady && s.hasWorker then
    let cfg := lookupCfg s.combatMode s.currentElo
    issueSearch s fen cfg.depth (if jsTruthy cfg.movetime then cfg.movetime else none)
  else (s, [])

/-- `preAnalyze(fen)` from `src/content/engine.js` lines 679-695: identical
discipline, but the search runs at `Math.max(6, cfg.depth - 4)` with a
fixed `movetime 3000`. -/
def preAnalyze (s : TitanState) (fen : String) : TitanState × List Eff :=
  if s.engineReady && s.hasWorker then
    let cfg := lookupCfg s.combatMode s.currentElo
    issueSearch s fen (max 6 (cfg.depth - 4)) (some 3000)
  else (s, [])

/-- `showMove(move)` from `src/content/engine.js` lines 644-657: queue-mode
bookkeeping, then the move is stored in `pendingArrows` AND displayed in
`arrows` unconditionally, followed by `D.draw(true)`. -/
def showMove (s : TitanState) (mv : String) : TitanState × List Eff :=
  let s1 := if s.queueMode then { s with moveQueue := s.moveQueue ++ [mv] } else s
  ({ s1 with pendingArrows := [mv], arrows := [mv], forceRedraw := true }, [Eff.draw])

/-- The `bestmove` branch of `T.stockfishWorker.onmessage`
(`src/content/engine.js` lines 521-531), combined with FIFO delivery from
the worker channel: the delivered line answers the oldest unanswered
search.  `valid` is whether the regex `bestmove ([a-h][1-8][a-h][1-8])`
matched.  If `ignoreNextBestmove > 0` the line is consumed and discarded;
otherwise a valid move runs `showMove` (tagging `displayedSeq` with the
answered request), and `analyzing` is cleared together with the watchdog. -/
def onBestmove (s : TitanState) (valid : Bool) (mv : String) : TitanState × List Eff :=
  match s.inflight with
  | [] => (s, [])
  | q :: rest =>
    if s.ignoreNextBestmove > 0 then
      ({ s with ignoreNextBestmove := s.ignoreNextBestmove - 1, inflight := rest }, [])
    else
      let s1 := { s with inflight := rest }
      let r := if valid then
          let r0 := showMove s1 mv
          ({ r0.1 with displayedSeq := some q }, r0.2)
        else (s1, [])
      ({ r.1 with analyzing := false, watchdog := none }, r.2)

/-- The `setTimeout` callback of `startAnalyzeWatchdog`
(`src/content/engine.js` lines 440-451): if the timer fires while
`analyzing` is still set, warn, clear `analyzing`, and (when the worker
exists) post `stop` and bump `ignoreNextBestmove`.  Firing consumes the
armed timer. -/
def watchdogFire (s : TitanState) : TitanState × List Eff :=
  if s.watchdog.isSome then
    let s0 := { s with watchdog := none }
    if s0.analyzing then
      let s1 := { s0 with analyzing := false }
      if s1.hasWorker then
        ({ s1 with ignoreNextBestmove := s1.ignoreNextBestmove + 1 }, [Eff.warn, Eff.stop])
      else (s1, [Eff.warn])
    else (s0, [])
  else (s, [])

/-- `clearArrows()` from `src/unnamed/part_000` lines 1205-1208: clears the
displayed arrows AND the pending arrows, then wipes the canvas. -/
def clearArrows (s : TitanState) : TitanState × List Eff :=
  ({ s with arrows := [], pendingArrows := [] }, [Eff.clearCanvas])

/-- Whether the character list `needle` occurs at the front of `hay`. -/
def charsLeadWith : List Char → List Char → Bool
  | [], _ => true
  | _ :: _, [] => false
  | a :: as, b :: bs => a == b && charsLeadWith as bs

/-- Whether `needle` occurs as a contiguous run anywhere in the list. -/
def charsContain (needle : List Char) : List Char → Bool
  | [] => charsLeadWith needle []
  | c :: t => charsLeadWith needle (c :: t) || charsContain needle t

/-- JavaScript `hay.includes(needle)` on strings. -/
def includesStr (hay needle : String) : Bool :=
  charsContain needle.toList hay.toList

/-- The starting-position piece placement used by the new-game check in
`monitor` (`src/unnamed/part_000` lines 78-79). -/
def startBody : String := "rnbqkbnr/pppppppp/8/8/8/8/PPPPPPPP/RNBQKBNR"

/-- Split a character list at every occurrence of `sep` (the `split` of
JavaScript: consecutive separators yield empty fields). -/
def splitOnChar (sep : Char) : List Char → List (List Char)
  | [] => [[]]
  | c :: t =>
    let r := splitOnChar sep t
    if c == sep then [] :: r
    else
      match r with
      | [] => [[c]]
      | h :: t2 => (c :: h) :: t2

/-- JavaScript `fen.split(' ')` on the space character. -/
def fenFields (fen : String) : List String :=
  (splitOnChar ' ' fen.toList).map (fun l => String.mk l)

/-- JavaScript `fen.split(' ')[1] || 'w'` (`monitor`, line 101): the
side-to-move field of a FEN, defaulting to white when the field is missing
or empty. -/
def fenTurn (fen : String) : String :=
  match (fenFields fen).get? 1 with
  | some t => if t == "" then "w" else t
  | none => "w"

/-- New-game phase of `monitor` (`src/unnamed/part_000` lines 78-99): when
the observed FEN is the starting position and the previous one was not,
reset queue and pending state, clear the arrows, and send `ucinewgame`
when the engine is up.  (DOM bookkeeping — observer, board cache, castling
trackers, `setup()` — is elided.) -/
def newGamePhase (s : TitanState) (fen : String) : TitanState × List Eff :=
  let isStart := includesStr fen startBody
  let wasNotStart := (s.previousFen != "") && !includesStr s.previousFen startBody
  if isStart && wasNotStart then
    let s1 := { s with moveQueue := [], pendingArrows := [] }
    let r := clearArrows s1
    let engEffs := if s.hasWorker && s.engineReady then [Eff.ucinewgame] else []
    (r.1, r.2 ++ engEffs)
  else (s, [])

/-- Position-changed phase of `monitor` (`src/unnamed/part_000` lines
106-118): on a changed FEN, shift the FEN history, drop pending arrows,
clear the display, then analyze on the player's turn or pre-analyze in
queue mode on the opponent's turn. -/
def movePhase (s : TitanState) (fen myColor : String) : TitanState × List Eff :=
  let isMyTurn := fenTurn fen == myColor
  if fen != s.currentFen then
    let s1 := { s with previousFen := s.currentFen, currentFen := fen, pendingArrows := [] }
    let r := clearArrows s1
    if isMyTurn then
      let r2 := analyze r.1 fen
      (r2.1, r.2 ++ r2.2)
    else if s.queueMode then
      let r2 := preAnalyze r.1 fen
      (r2.1, r.2 ++ r2.2)
    else (r.1, r.2)
  else (s, [])

/-- Opponent-turn phase of `monitor` (`src/unnamed/part_000` lines
121-123): off the player's turn, any displayed arrows are cleared. -/
def oppClearPhase (s : TitanState) (fen myColor : String) : TitanState × List Eff :=
  let isMyTurn := fenTurn fen == myColor
  if !isMyTurn && s.arrows.length > 0 then clearArrows s else (s, [])

/-- Promotion phase of `monitor` (`src/unnamed/part_000` lines 126-130):
on the player's turn, pending arrows are restored to the display when
nothing is shown. -/
def promotePhase (s : TitanState) (fen myColor : String) : TitanState × List Eff :=
  let isMyTurn := fenTurn fen == myColor
  if isMyTurn && !s.pendingArrows.isEmpty && s.arrows.isEmpty then
    ({ s with arrows := s.pendingArrows, forceRedraw := true }, [Eff.draw])
  else (s, [])

/-- Idle-analysis phase of `monitor` (`src/unnamed/part_000` lines
133-135): player's turn, nothing pending or shown, engine idle → analyze. -/
def idlePhase (s : TitanState) (fen myColor : String) : TitanState × List Eff :=
  let isMyTurn := fenTurn fen == myColor
  if isMyTurn && s.pendingArrows.isEmpty && s.arrows.isEmpty && !s.analyzing then
    analyze s fen
  else (s, [])

/-- One `monitor()` tick (`src/unnamed/part_000` lines 73-139) on a
successfully observed board: `fen` is `B.getFen()` and `myColor` is
`B.getPlayerColor()`; a tick where either is unavailable returns early and
is not modelled.  The phases run in source order on the threaded state. -/
def monitor (s : TitanState) (fen myColor : String) : TitanState × List Eff :=
  let r1 := newGamePhase s fen
  let r2 := movePhase r1.1 fen myColor
  let r3 := oppClearPhase r2.1 fen myColor
  let r4 := promotePhase r3.1 fen myColor
  let r5 := idlePhase r4.1 fen myColor
  (r5.1, r1.2 ++ r2.2 ++ r3.2 ++ r4.2 ++ r5.2)

/-- Events driving the orchestration state: worker lifecycle
(`initEngine` creating the worker, the `uciok` line, `onerror`), the two
entry points `analyze` / `preAnalyze`, a delivered bestmove line, the
watchdog timer firing, a monitor tick, and the widget/popup setters. -/
inductive Ev where
  | workerCreated
  | uciok
  | workerError
  | analyzeReq (fen : String)
  | preAnalyzeReq (fen : String)
  | bestmove (valid : Bool) (mv : String)
  | watchdogFired
  | tick (fen myColor : String)
  | setEloEv (elo : String)
  | setCombat (b : Bool)
  | setQueue (b : Bool)
deriving Repr, DecidableEq

/-- Step function over events.  `workerCreated` models the blob worker
being created by `initEngine` (guarded by `if (T.stockfishWorker) return`);
`uciok` models the readiness branch of `onmessage` (its `setoption` posts
are not tracked); `workerError` models `onerror` lines 534-543: analysis
and watchdog cleared, worker and readiness dropped (destroying the
worker's queued responses).  `setEloEv` sets `T.currentElo` (`setElo` line
591); option posts are not tracked. -/
def stepEv (s : TitanState) (e : Ev) : TitanState × List Eff :=
  match e with
  | Ev.workerCreated => if s.hasWorker then (s, []) else ({ s with hasWorker := true }, [])
  | Ev.uciok => if s.hasWorker then ({ s with engineReady := true }, []) else (s, [])
  | Ev.workerError =>
      ({ s with analyzing := false, watchdog := none, hasWorker := false,
                engineReady := false, inflight := [] }, [Eff.warn])
  | Ev.analyzeReq fen => analyze s fen
  | Ev.preAnalyzeReq fen => preAnalyze s fen
  | Ev.bestmove valid mv => onBestmove s valid mv
  | Ev.watchdogFired => watchdogFire s
  | Ev.tick fen myColor => monitor s fen myColor
  | Ev.setEloEv elo => ({ s with currentElo := elo }, [])
  | Ev.setCombat b => ({ s with combatMode := b }, [])
  | Ev.setQueue b => ({ s with queueMode := b }, [])

/-- Run a list of events from the initial state. -/
def run (evs : List Ev) : TitanState :=
  evs.foldl (fun s e => (stepEv s e).1) initState

/-- A state the orchestration can actually be in. -/
def Reachable (s : TitanState) : Prop :=
  ∃ evs, run evs = s

/-- Channel invariant tying the `ignoreNextBestmove` counter to the
worker's response queue:
1. at most one in-flight search is not covered by the ignore counter
   (none when the busy flag is down);
2. while busy, every in-flight search past the ignored prefix is the most
   recently issued one;
3. the busy flag implies the worker exists. -/
def SchedInv (s : TitanState) : Prop :=
  s.inflight.length ≤ s.ignoreNextBestmove + cond s.analyzing 1 0 ∧
  (s.analyzing = true → ∀ q ∈ s.inflight.drop s.ignoreNextBestmove, q = s.lastSeq) ∧
  (s.analyzing = true → s.hasWorker = true)

theorem drop_append_last {x : Nat} :
    ∀ (l : List Nat) (k : Nat), l.length ≤ k → ∀ q ∈ (l ++ [x]).drop k, q = x := by
  intro l
  induction l with
  | nil =>
    intro k _ q hq
    cases k with
    | zero => simpa using hq
    | succ n => simp [List.drop] at hq
  | cons a t ih =>
    intro k hk q hq
    cases k with
    | zero => simp at hk
    | succ n =>
      simp only [List.cons_append, List.drop_succ_cons] at hq
      exact ih n (by simpa using hk) q hq

theorem inv_initState : SchedInv initState := by
  refine ⟨by simp [initState], ?_, ?_⟩ <;> simp [initState]

theorem inv_issueSearch {s : TitanState} (h : SchedInv s) (hw : s.hasWorker = true)
    (fen : String) (d : Nat) (m : Option Nat) : SchedInv (issueSearch s fen d m).1 := by
  obtain ⟨hA, hL, _⟩ := h
  by_cases ha : s.analyzing
  · refine ⟨?_, ?_, ?_⟩ <;>
      simp only [issueSearch, abortIfBusy, ha, if_true, cond_true, cond_false]
    · simp only [ha, cond_true] at hA
      simp [Nat.succ_le_succ hA]
    · intro _
      exact drop_append_last s.inflight (s.ignoreNextBestmove + 1)
        (by simpa [ha] using hA)
    · intro _
      simpa using hw
  · refine ⟨?_, ?_, ?_⟩ <;>
      simp only [issueSearch, abortIfBusy, ha, if_false, cond_true, cond_false,
        Bool.false_eq_true, ite_false]
    · simp only [ha, cond_false] at hA
      simp [Nat.succ_le_succ hA]
    · intro _
      exact drop_append_last s.inflight s.ignoreNextBestmove
        (by simpa [ha] using hA)
    · intro _
      simpa using hw


theorem inv_analyze {s : TitanState} (h : SchedInv s) (fen : String) :
    SchedInv (analyze s fen).1 := by
  unfold analyze
  split
  case isTrue hg =>
    have hg2 : s.engineReady = true ∧ s.hasWorker = true := by simpa using hg
    exact inv_issueSearch h hg2.2 fen _ _
  case isFalse hg => exact h

theorem inv_preAnalyze {s : TitanState} (h : SchedInv s) (fen : String) :
    SchedInv (preAnalyze s fen).1 := by
  unfold preAnalyze
  split
  case isTrue hg =>
    have hg2 : s.engineReady = true ∧ s.hasWorker = true := by simpa using hg
    exact inv_issueSearch h hg2.2 fen _ _
  case isFalse hg => exact h

theorem inv_onBestmove {s : TitanState} (h : SchedInv s) (valid : Bool) (mv : String) :
    SchedInv (onBestmove s valid mv).1 := by
  obtain ⟨hA, hL, hW⟩ := h
  unfold onBestmove
  cases hq : s.inflight with
  | nil => exact ⟨by simpa [hq] using hA, by simpa [hq] using hL, hW⟩
  | cons q rest =>
    dsimp only
    by_cases hi : s.ignoreNextBestmove > 0
    · rw [if_pos hi]
      refine ⟨?_, ?_, ?_⟩
      · have := hA
        rw [hq] at this
        simp only [List.length_cons] at this
        cases hc : s.analyzing <;> simp only [hc, cond_true, cond_false] at this ⊢ <;> omega
      · intro hc q2 hq2
        simp only at hq2 ⊢
        have hrw : s.ignoreNextBestmove = (s.ignoreNextBestmove - 1) + 1 := by omega
        have := hL hc
        rw [hq, hrw] at this
        simp only [List.drop_succ_cons] at this
        exact this q2 hq2
      · intro hc
        exact hW hc
    · have hi0 : s.ignoreNextBestmove = 0 := by omega
      have hc : s.analyzing = true := by
        rcases hb : s.analyzing
        · exfalso
          rw [hq, hi0, hb] at hA
          simp at hA
        · rfl
      have hrest : rest = [] := by
        rw [hq, hi0, hc] at hA
        simp at hA
        simpa using hA
      rw [if_neg hi]
      cases valid with
      | false =>
        exact ⟨by simp [hrest, hi0], by intro hx; simp at hx, by intro hx; simp at hx⟩
      | true =>
        cases hqm : s.queueMode with
        | false =>
          refine ⟨?_, ?_, ?_⟩ <;> simp [showMove, hqm, hrest, hi0]
        | true =>
          refine ⟨?_, ?_, ?_⟩ <;> simp [showMove, hqm, hrest, hi0]

theorem inv_watchdogFire {s : TitanState} (h : SchedInv s) : SchedInv (watchdogFire s).1 := by
  obtain ⟨hA, hL, hW⟩ := h
  unfold watchdogFire
  dsimp only
  by_cases hs : s.watchdog.isSome = true
  · rw [if_pos hs]
    by_cases ha : s.analyzing = true
    · rw [if_pos ha]
      have hw : s.hasWorker = true := hW ha
      rw [if_pos hw]
      refine ⟨?_, ?_, ?_⟩
      · have hA2 : s.inflight.length ≤ s.ignoreNextBestmove + 1 := by
          rw [ha] at hA
          simpa using hA
        simpa using hA2
      · intro hx
        simp at hx
      · intro hx
        simp at hx
    · rw [if_neg ha]
      exact ⟨hA, hL, hW⟩
  · rw [if_neg hs]
    exact ⟨hA, hL, hW⟩

theorem inv_clearArrows {s : TitanState} (h : SchedInv s) : SchedInv (clearArrows s).1 := by
  obtain ⟨hA, hL, hW⟩ := h
  exact ⟨hA, hL, hW⟩

theorem inv_newGamePhase {s : TitanState} (h : SchedInv s) (fen : String) :
    SchedInv (newGamePhase s fen).1 := by
  unfold newGamePhase
  dsimp only
  by_cases hg : (includesStr fen startBody &&
      ((s.previousFen != "") && !includesStr s.previousFen startBody)) = true
  · rw [if_pos hg]
    exact inv_clearArrows ⟨h.1, h.2.1, h.2.2⟩
  · rw [if_neg hg]
    exact h

theorem inv_movePhase {s : TitanState} (h : SchedInv s) (fen myColor : String) :
    SchedInv (movePhase s fen myColor).1 := by
  unfold movePhase
  dsimp only
  by_cases hg : (fen != s.currentFen) = true
  · rw [if_pos hg]
    by_cases ht : (fenTurn fen == myColor) = true
    · rw [if_pos ht]
      refine inv_analyze (inv_clearArrows ?_) fen
      exact ⟨h.1, h.2.1, h.2.2⟩
    · rw [if_neg ht]
      by_cases hqm : s.queueMode = true
      · rw [if_pos hqm]
        refine inv_preAnalyze (inv_clearArrows ?_) fen
        exact ⟨h.1, h.2.1, h.2.2⟩
      · rw [if_neg hqm]
        refine inv_clearArrows ?_
        exact ⟨h.1, h.2.1, h.2.2⟩
  · rw [if_neg hg]
    exact h

theorem inv_oppClearPhase {s : TitanState} (h : SchedInv s) (fen myColor : String) :
    SchedInv (oppClearPhase s fen myColor).1 := by
  unfold oppClearPhase
  dsimp only
  by_cases hg : (!(fenTurn fen == myColor) && decide (s.arrows.length > 0)) = true
  · rw [if_pos hg]
    exact inv_clearArrows h
  · rw [if_neg hg]
    exact h

theorem inv_promotePhase {s : TitanState} (h : SchedInv s) (fen myColor : String) :
    SchedInv (promotePhase s fen myColor).1 := by
  unfold promotePhase
  dsimp only
  by_cases hg : (fenTurn fen == myColor && !s.pendingArrows.isEmpty && s.arrows.isEmpty) = true
  · rw [if_pos hg]
    exact ⟨h.1, h.2.1, h.2.2⟩
  · rw [if_neg hg]
    exact h

theorem inv_idlePhase {s : TitanState} (h : SchedInv s) (fen myColor : String) :
    SchedInv (idlePhase s fen myColor).1 := by
  unfold idlePhase
  dsimp only
  by_cases hg : (fenTurn fen == myColor && s.pendingArrows.isEmpty && s.arrows.isEmpty
      && !s.analyzing) = true
  · rw [if_pos hg]
    exact inv_analyze h fen
  · rw [if_neg hg]
    exact h

theorem inv_monitor {s : TitanState} (h : SchedInv s) (fen myColor : String) :
    SchedInv (monitor s fen myColor).1 :=
  inv_idlePhase (inv_promotePhase (inv_oppClearPhase
    (inv_movePhase (inv_newGamePhase h fen) fen myColor) fen myColor) fen myColor)
    fen myColor

theorem inv_stepEv {s : TitanState} (h : SchedInv s) (e : Ev) : SchedInv (stepEv s e).1 := by
  obtain ⟨hA, hL, hW⟩ := h
  cases e with
  | workerCreated =>
    simp only [stepEv]
    split
    · exact ⟨hA, hL, hW⟩
    · exact ⟨hA, hL, fun _ => rfl⟩
  | uciok =>
    simp only [stepEv]
    split
    · exact ⟨hA, hL, hW⟩
    · exact ⟨hA, hL, hW⟩
  | workerError =>
    refine ⟨by simp [stepEv], ?_, ?_⟩ <;> intro hx <;> simp [stepEv] at hx
  | analyzeReq fen => exact inv_analyze ⟨hA, hL, hW⟩ fen
  | preAnalyzeReq fen => exact inv_preAnalyze ⟨hA, hL, hW⟩ fen
  | bestmove valid mv => exact inv_onBestmove ⟨hA, hL, hW⟩ valid mv
  | watchdogFired => exact inv_watchdogFire ⟨hA, hL, hW⟩
  | tick fen myColor => exact inv_monitor ⟨hA, hL, hW⟩ fen myColor
  | setEloEv elo => exact ⟨hA, hL, hW⟩
  | setCombat b => exact ⟨hA, hL, hW⟩
  | setQueue b => exact ⟨hA, hL, hW⟩

theorem inv_foldl (evs : List Ev) :
    ∀ s, SchedInv s → SchedInv (evs.foldl (fun s e => (stepEv s e).1) s) := by
  induction evs with
  | nil => intro s h; simpa using h
  | cons e t ih =>
    intro s h
    simpa using ih _ (inv_stepEv h e)

theorem reachable_inv {s : TitanState} (h : Reachable s) : SchedInv s := by
  obtain ⟨evs, rfl⟩ := h
  exact inv_foldl evs initState inv_initState

/-- C5: for every mode and every level string, the analysis watchdog
duration computed by `startAnalyzeWatchdog` equals the spec formula:
movetime cap plus a fixed 5000 ms margin when the active profile has a
movetime, and otherwise 15000 + max(0, depth − 10) * 1500, which is the
base timeout floored at itself. -/
theorem watchdog_duration_matches_spec :
    ∀ (combat : Bool) (elo : String),
      watchdogTimeout combat elo = specWatchdogDuration combat elo := by
  intro combat elo
  have hm := lookupCfg_mem combat elo
  have hall : ∀ c ∈ (configTable combat).map Prod.snd,
      watchdogTimeoutOf c = specWatchdogDurationOf c := by
    cases combat <;> decide
  exact hall _ hm

/-- C8: strength-profile lookup is total with a deterministic fallback:
a level present in the mode's table resolves to its entry, an absent level
resolves to the same table's `"1000"` entry, `"1000"` is bound in both
mode tables (so the fallback level is identical across modes), and the
engine-manager resolver `getEloConfig` behaves the same way.  (Both
resolvers are pure Lean functions, so repeated calls agree by
definition.) -/
theorem strength_profile_fallback :
    ∀ (combat : Bool) (elo : String),
      ((configTable combat).lookup elo = none →
        lookupCfg combat elo = lookupCfg combat "1000") ∧
      (∀ c, (configTable combat).lookup elo = some c → lookupCfg combat elo = c) ∧
      (configTable combat).lookup "1000" = some (lookupCfg combat "1000") ∧
      (emConfigs.lookup elo = none → getEloConfig elo = getEloConfig "1000") ∧
      emConfigs.lookup "1000" = some (getEloConfig "1000") := by
  intro combat elo
  refine ⟨?_, ?_, ?_, ?_, ?_⟩
  · intro hn
    unfold lookupCfg
    rw [hn]
    cases combat <;> rfl
  · intro c hc
    unfold lookupCfg
    rw [hc]
  · cases combat <;> rfl
  · intro hn
    unfold getEloConfig
    rw [hn]
    rfl
  · rfl

theorem strength_profile_fallback_witness :
    lookupCfg false "9999" = lookupCfg false "1000" ∧
    lookupCfg true "9999" = lookupCfg true "1000" ∧
    getEloConfig "9999" = getEloConfig "1000" :=
  ⟨(strength_profile_fallback false "9999").1 rfl,
   (strength_profile_fallback true "9999").1 rfl,
   (strength_profile_fallback false "9999").2.2.2.1 rfl⟩

/-- C9: on a ready engine, a prefetch search goes out at depth
`max(6, activeDepth − 4)` with the fixed 3000 ms cap, while a primary
search goes out at the active profile's full depth (with the profile's
own movetime cap when one is configured). -/
theorem prefetch_reduced_depth :
    ∀ (s : TitanState) (fen : String),
      s.engineReady = true → s.hasWorker = true →
      Eff.go (max 6 ((lookupCfg s.combatMode s.currentElo).depth - 4)) (some 3000)
          ∈ (preAnalyze s fen).2 ∧
      Eff.go (lookupCfg s.combatMode s.currentElo).depth
          (if jsTruthy (lookupCfg s.combatMode s.currentElo).movetime
            then (lookupCfg s.combatMode s.currentElo).movetime else none)
          ∈ (analyze s fen).2 := by
  intro s fen hr hw
  have hg : (s.engineReady && s.hasWorker) = true := by rw [hr, hw]; rfl
  constructor
  · unfold preAnalyze
    rw [if_pos hg]
    unfold issueSearch abortIfBusy
    by_cases ha : s.analyzing = true
    · rw [if_pos ha]; simp
    · rw [if_neg ha]; simp
  · unfold analyze
    rw [if_pos hg]
    unfold issueSearch abortIfBusy
    by_cases ha : s.analyzing = true
    · rw [if_pos ha]; simp
    · rw [if_neg ha]; simp

theorem prefetch_reduced_depth_witness :
    Eff.go 6 (some 3000) ∈
      (preAnalyze { initState with engineReady := true, hasWorker := true } "fen0").2 ∧
    Eff.go 5 none ∈
      (analyze { initState with engineReady := true, hasWorker := true } "fen0").2 :=
  prefetch_reduced_depth { initState with engineReady := true, hasWorker := true } "fen0" rfl rfl

/-- C10: calling `analyze` or `preAnalyze` when the engine is not ready or
the worker is absent is a complete no-op: the state is returned unchanged
(no busy flag, no watchdog, no arrow changes) and no message is posted. -/
theorem not_ready_noop :
    ∀ (s : TitanState) (fen : String),
      s.engineReady = false ∨ s.hasWorker = false →
      analyze s fen = (s, []) ∧ preAnalyze s fen = (s, []) := by
  intro s fen h
  have hg : (s.engineReady && s.hasWorker) = false := by
    rcases h with h | h <;> simp [h]
  refine ⟨?_, ?_⟩
  · unfold analyze
    rw [if_neg (by simp [hg])]
  · unfold preAnalyze
    rw [if_neg (by simp [hg])]

theorem not_ready_noop_witness :
    analyze initState "fen0" = (initState, []) ∧
    preAnalyze initState "fen0" = (initState, []) :=
  not_ready_noop initState "fen0" (Or.inl rfl)

theorem analyze_idle_effects {s : TitanState} (fen : String)
    (ha : s.analyzing = false) (hr : s.engineReady = true) (hw : s.hasWorker = true) :
    (analyze s fen).1.analyzing = true ∧
    Eff.stop ∉ (analyze s fen).2 ∧
    Eff.go (lookupCfg s.combatMode s.currentElo).depth
      (if jsTruthy (lookupCfg s.combatMode s.currentElo).movetime
        then (lookupCfg s.combatMode s.currentElo).movetime else none)
      ∈ (analyze s fen).2 := by
  unfold analyze
  have hg : (s.engineReady && s.hasWorker) = true := by rw [hr, hw]; rfl
  rw [if_pos hg]
  unfold issueSearch abortIfBusy
  rw [if_neg (by simp [ha])]
  refine ⟨rfl, by simp, by simp⟩

/-- Concrete busy state used by the witnesses: worker up, engine ready,
one search in flight (sequence 1), watchdog armed. -/
def busyState : TitanState :=
  { initState with
    engineReady := true, hasWorker := true, analyzing := true,
    watchdog := some 15000, inflight := [1], lastSeq := 1, nextSeq := 2 }

/-- C6: when the watchdog fires while a request is outstanding (busy flag
up, worker alive, timer armed), it clears the busy flag, force-aborts by
posting `stop` and bumping the stale-response counter, and logs a warning;
afterwards the slot is free: the next `analyze` call on a ready engine
goes straight to issuing a search (no abort path) and occupies the slot. -/
theorem watchdog_recovers :
    ∀ (s : TitanState),
      s.analyzing = true → s.hasWorker = true → s.watchdog.isSome = true →
      (watchdogFire s).1.analyzing = false ∧
      (watchdogFire s).1.ignoreNextBestmove = s.ignoreNextBestmove + 1 ∧
      Eff.stop ∈ (watchdogFire s).2 ∧ Eff.warn ∈ (watchdogFire s).2 ∧
      (∀ fen, s.engineReady = true →
        (analyze (watchdogFire s).1 fen).1.analyzing = true ∧
        Eff.stop ∉ (analyze (watchdogFire s).1 fen).2 ∧
        Eff.go (lookupCfg s.combatMode s.currentElo).depth
          (if jsTruthy (lookupCfg s.combatMode s.currentElo).movetime
            then (lookupCfg s.combatMode s.currentElo).movetime else none)
          ∈ (analyze (watchdogFire s).1 fen).2) := by
  intro s ha hw hs
  unfold watchdogFire
  dsimp only
  rw [if_pos hs, if_pos ha, if_pos hw]
  refine ⟨rfl, rfl, by simp, by simp, ?_⟩
  intro fen hr
  exact analyze_idle_effects fen rfl hr hw

theorem watchdog_recovers_witness :
    (watchdogFire busyState).1.analyzing = false ∧
    (watchdogFire busyState).1.ignoreNextBestmove = 1 ∧
    Eff.stop ∈ (watchdogFire busyState).2 ∧
    (analyze (watchdogFire busyState).1 "fen0").1.analyzing = true ∧
    Eff.stop ∉ (analyze (watchdogFire busyState).1 "fen0").2 := by
  have h := watchdog_recovers busyState rfl rfl rfl
  have h5 := h.2.2.2.2 "fen0" rfl
  exact ⟨h.1, h.2.1, h.2.2.1, h5.1, h5.2.1⟩

/-- Number of in-flight searches not covered by the stale-response
counter: the searches whose responses would actually be processed. -/
def liveRequests (s : TitanState) : Nat :=
  s.inflight.length - s.ignoreNextBestmove

/-- C3: in every reachable state at most one search is outstanding-and-live
(every other in-flight search has been aborted and its response is covered
by `ignoreNextBestmove`); and whenever `analyze` or `preAnalyze` runs while
a search is in flight, the posted command sequence is exactly `stop` first,
then the new position and go commands. -/
theorem single_outstanding_request :
    (∀ s : TitanState, Reachable s → liveRequests s ≤ 1) ∧
    (∀ (s : TitanState) (fen : String),
      s.engineReady = true → s.hasWorker = true → s.analyzing = true →
      (analyze s fen).2 = [Eff.stop, Eff.fenPos fen,
          Eff.go (lookupCfg s.combatMode s.currentElo).depth
            (if jsTruthy (lookupCfg s.combatMode s.currentElo).movetime
              then (lookupCfg s.combatMode s.currentElo).movetime else none)] ∧
      (preAnalyze s fen).2 = [Eff.stop, Eff.fenPos fen,
          Eff.go (max 6 ((lookupCfg s.combatMode s.currentElo).depth - 4)) (some 3000)]) := by
  constructor
  · intro s hr
    obtain ⟨hA, _, _⟩ := reachable_inv hr
    unfold liveRequests
    cases hc : s.analyzing <;> rw [hc] at hA <;> simp at hA <;> omega
  · intro s fen hr hw ha
    have hg : (s.engineReady && s.hasWorker) = true := by rw [hr, hw]; rfl
    constructor
    · unfold analyze
      rw [if_pos hg]
      unfold issueSearch abortIfBusy
      rw [if_pos ha]
      rfl
    · unfold preAnalyze
      rw [if_pos hg]
      unfold issueSearch abortIfBusy
      rw [if_pos ha]
      rfl

theorem single_outstanding_request_witness :
    liveRequests (run [Ev.workerCreated, Ev.uciok, Ev.analyzeReq "f1", Ev.analyzeReq "f2"]) ≤ 1 ∧
    (analyze busyState "f3").2 = [Eff.stop, Eff.fenPos "f3", Eff.go 5 none] := by
  refine ⟨single_outstanding_request.1 _ ⟨_, rfl⟩, ?_⟩
  exact (single_outstanding_request.2 busyState "f3" rfl rfl rfl).1

/-- C2: in every reachable state, a bestmove line that answers an aborted
(preempted or watchdogged) request — i.e. one still covered by the
`ignoreNextBestmove` counter — is discarded outright: arrows and pending
arrows are untouched and nothing is drawn; and whenever a bestmove line IS
displayed, the request it answers is exactly the most recently issued one
(`lastSeq`), so only the newest request's response can ever be shown. -/
theorem stale_response_never_displayed :
    ∀ (s : TitanState), Reachable s → ∀ (mv : String),
      (0 < s.ignoreNextBestmove →
        (onBestmove s true mv).1.pendingArrows = s.pendingArrows ∧
        (onBestmove s true mv).1.arrows = s.arrows ∧
        (onBestmove s true mv).2 = []) ∧
      (Eff.draw ∈ (onBestmove s true mv).2 →
        (onBestmove s true mv).1.displayedSeq = some s.lastSeq) := by
  intro s hr mv
  obtain ⟨hA, hL, hW⟩ := reachable_inv hr
  constructor
  · intro hi
    unfold onBestmove
    cases hq : s.inflight with
    | nil => exact ⟨rfl, rfl, rfl⟩
    | cons q rest =>
      dsimp only
      rw [if_pos hi]
      exact ⟨rfl, rfl, rfl⟩
  · intro hd
    unfold onBestmove at hd ⊢
    cases hq : s.inflight with
    | nil =>
      rw [hq] at hd
      simp at hd
    | cons q rest =>
      rw [hq] at hd
      dsimp only at hd ⊢
      by_cases hi : s.ignoreNextBestmove > 0
      · rw [if_pos hi] at hd
        simp at hd
      · have hi0 : s.ignoreNextBestmove = 0 := by omega
        have hc : s.analyzing = true := by
          rcases hb : s.analyzing
          · exfalso
            rw [hq, hi0, hb] at hA
            simp at hA
          · rfl
        have hql : q = s.lastSeq := by
          have := hL hc
          rw [hq, hi0] at this
          exact this q (by simp)
        rw [if_neg hi]
        cases hqm : s.queueMode with
        | false => simp [showMove, hqm, hql]
        | true => simp [showMove, hqm, hql]

theorem stale_response_never_displayed_witness :
    (onBestmove (run [Ev.workerCreated, Ev.uciok, Ev.analyzeReq "f1", Ev.analyzeReq "f2"])
        true "e2e4").1.arrows =
      (run [Ev.workerCreated, Ev.uciok, Ev.analyzeReq "f1", Ev.analyzeReq "f2"]).arrows ∧
    (onBestmove (run [Ev.workerCreated, Ev.uciok, Ev.analyzeReq "f1", Ev.analyzeReq "f2"])
        true "e2e4").2 = [] ∧
    (onBestmove (run [Ev.workerCreated, Ev.uciok, Ev.analyzeReq "f1", Ev.analyzeReq "f2",
        Ev.bestmove true "a7a5"]) true "e2e4").1.displayedSeq =
      some (run [Ev.workerCreated, Ev.uciok, Ev.analyzeReq "f1", Ev.analyzeReq "f2",
        Ev.bestmove true "a7a5"]).lastSeq := by
  have h1 := stale_response_never_displayed
    (run [Ev.workerCreated, Ev.uciok, Ev.analyzeReq "f1", Ev.analyzeReq "f2"])
    ⟨[Ev.workerCreated, Ev.uciok, Ev.analyzeReq "f1", Ev.analyzeReq "f2"], rfl⟩ "e2e4"
  have h2 := stale_response_never_displayed
    (run [Ev.workerCreated, Ev.uciok, Ev.analyzeReq "f1", Ev.analyzeReq "f2",
      Ev.bestmove true "a7a5"])
    ⟨[Ev.workerCreated, Ev.uciok, Ev.analyzeReq "f1", Ev.analyzeReq "f2",
      Ev.bestmove true "a7a5"], rfl⟩ "e2e4"
  have h1a := h1.1 (by decide)
  exact ⟨h1a.2.1, h1a.2.2, h2.2 (by decide)⟩

theorem ucinewgame_notin_issueSearch (s : TitanState) (fen : String) (d : Nat)
    (m : Option Nat) : Eff.ucinewgame ∉ (issueSearch s fen d m).2 := by
  unfold issueSearch abortIfBusy
  by_cases ha : s.analyzing = true
  · rw [if_pos ha]
    simp
  · rw [if_neg ha]
    simp

theorem ucinewgame_notin_analyze (s : TitanState) (fen : String) :
    Eff.ucinewgame ∉ (analyze s fen).2 := by
  unfold analyze
  by_cases hg : (s.engineReady && s.hasWorker) = true
  · rw [if_pos hg]
    exact ucinewgame_notin_issueSearch _ _ _ _
  · rw [if_neg hg]
    simp

theorem ucinewgame_notin_preAnalyze (s : TitanState) (fen : String) :
    Eff.ucinewgame ∉ (preAnalyze s fen).2 := by
  unfold preAnalyze
  by_cases hg : (s.engineReady && s.hasWorker) = true
  · rw [if_pos hg]
    exact ucinewgame_notin_issueSearch _ _ _ _
  · rw [if_neg hg]
    simp

theorem ucinewgame_notin_movePhase (s : TitanState) (fen myColor : String) :
    Eff.ucinewgame ∉ (movePhase s fen myColor).2 := by
  unfold movePhase
  dsimp only
  by_cases hg : (fen != s.currentFen) = true
  · rw [if_pos hg]
    by_cases ht : (fenTurn fen == myColor) = true
    · rw [if_pos ht]
      intro hmem
      rcases List.mem_append.1 hmem with hh | hh
      · simp [clearArrows] at hh
      · exact ucinewgame_notin_analyze _ fen hh
    · rw [if_neg ht]
      by_cases hqm : s.queueMode = true
      · rw [if_pos hqm]
        intro hmem
        rcases List.mem_append.1 hmem with hh | hh
        · simp [clearArrows] at hh
        · exact ucinewgame_notin_preAnalyze _ fen hh
      · rw [if_neg hqm]
        simp [clearArrows]
  · rw [if_neg hg]
    simp

theorem ucinewgame_notin_oppClearPhase (s : TitanState) (fen myColor : String) :
    Eff.ucinewgame ∉ (oppClearPhase s fen myColor).2 := by
  unfold oppClearPhase
  dsimp only
  by_cases hg : (!(fenTurn fen == myColor) && decide (s.arrows.length > 0)) = true
  · rw [if_pos hg]
    simp [clearArrows]
  · rw [if_neg hg]
    simp

theorem ucinewgame_notin_promotePhase (s : TitanState) (fen myColor : String) :
    Eff.ucinewgame ∉ (promotePhase s fen myColor).2 := by
  unfold promotePhase
  dsimp only
  by_cases hg : (fenTurn fen == myColor && !s.pendingArrows.isEmpty && s.arrows.isEmpty) = true
  · rw [if_pos hg]
    simp
  · rw [if_neg hg]
    simp

theorem ucinewgame_notin_idlePhase (s : TitanState) (fen myColor : String) :
    Eff.ucinewgame ∉ (idlePhase s fen myColor).2 := by
  unfold idlePhase
  dsimp only
  by_cases hg : (fenTurn fen == myColor && s.pendingArrows.isEmpty && s.arrows.isEmpty
      && !s.analyzing) = true
  · rw [if_pos hg]
    exact ucinewgame_notin_analyze _ fen
  · rw [if_neg hg]
    simp

theorem ucinewgame_in_newGamePhase (s : TitanState) (fen : String) :
    Eff.ucinewgame ∈ (newGamePhase s fen).2 ↔
      (includesStr fen startBody &&
        ((s.previousFen != "") && !includesStr s.previousFen startBody)) = true ∧
      (s.hasWorker && s.engineReady) = true := by
  unfold newGamePhase
  dsimp only
  by_cases hg : (includesStr fen startBody &&
      ((s.previousFen != "") && !includesStr s.previousFen startBody)) = true
  · rw [if_pos hg]
    by_cases he : (s.hasWorker && s.engineReady) = true
    · rw [if_pos he]
      simp [clearArrows, hg, he]
    · rw [if_neg he]
      simp [clearArrows, hg, he]
  · rw [if_neg hg]
    simp [hg]

/-- C7: the engine-reset command `ucinewgame` is emitted by a monitor tick
exactly when the observed FEN is the starting position, the previously
observed FEN was non-empty and not the starting position (a true new-game
transition), and the engine is up; and neither `analyze` nor `preAnalyze`
ever emits `ucinewgame` — so ordinary move-to-move transitions and
primary/prefetch requests send no reset. -/
theorem ucinewgame_only_on_new_game :
    ∀ (s : TitanState) (fen myColor : String),
      (Eff.ucinewgame ∈ (monitor s fen myColor).2 ↔
        (includesStr fen startBody &&
          ((s.previousFen != "") && !includesStr s.previousFen startBody)) = true ∧
        (s.hasWorker && s.engineReady) = true) ∧
      (∀ fen2, Eff.ucinewgame ∉ (analyze s fen2).2 ∧
        Eff.ucinewgame ∉ (preAnalyze s fen2).2) := by
  intro s fen myColor
  constructor
  · unfold monitor
    dsimp only
    constructor
    · intro hm
      rcases List.mem_append.1 hm with h4 | h5
      · rcases List.mem_append.1 h4 with h3 | hp
        · rcases List.mem_append.1 h3 with h2 | ho
          · rcases List.mem_append.1 h2 with hn | hmv
            · exact (ucinewgame_in_newGamePhase s fen).1 hn
            · exact absurd hmv (ucinewgame_notin_movePhase _ fen myColor)
          · exact absurd ho (ucinewgame_notin_oppClearPhase _ fen myColor)
        · exact absurd hp (ucinewgame_notin_promotePhase _ fen myColor)
      · exact absurd h5 (ucinewgame_notin_idlePhase _ fen myColor)
    · intro hr
      exact List.mem_append.2 (Or.inl (List.mem_append.2 (Or.inl (List.mem_append.2
        (Or.inl (List.mem_append.2 (Or.inl ((ucinewgame_in_newGamePhase s fen).2 hr))))))))
  · intro fen2
    exact ⟨ucinewgame_notin_analyze s fen2, ucinewgame_notin_preAnalyze s fen2⟩

/-- C1 (code evaluated at the failing input): the active profile for level
`"1000"` in normal mode carries `errorRate = 0.30 > 0`, yet the bestmove
handler stores AND displays every valid response unconditionally — the
modelled pipeline (`onBestmove` / `showMove`, a faithful translation of
`onmessage` lines 521-531 and `showMove` lines 644-657) contains no random
sample and no suppression branch, so no draw of a uniform sample below
`errorRate` can ever suppress a move, and with `errorRate = 1` every valid
response would still be displayed. -/
theorem error_rate_never_applied :
    (lookupCfg false "1000").errorRate = 3 / 10 ∧
    0 < (lookupCfg false "1000").errorRate ∧
    busyState.combatMode = false ∧ busyState.currentElo = "1000" ∧
    (onBestmove busyState true "e2e4").1.pendingArrows = ["e2e4"] ∧
    (onBestmove busyState true "e2e4").1.arrows = ["e2e4"] ∧
    Eff.draw ∈ (onBestmove busyState true "e2e4").2 := by
  refine ⟨?_, ?_, rfl, rfl, rfl, rfl, by decide⟩
  · show (0.30 : Rat) = 3 / 10
    norm_num
  · show (0 : Rat) < (0.30 : Rat)
    norm_num

/-- FEN observed with black to move (player is white): opponent-turn tick. -/
def c4FenOpp : String := "rnbqkbnr/pppppppp/8/8/4P3/8/PPPP1PPP/RNBQKBNR b KQkq - 0 1"

/-- The next observed FEN, white to move again. -/
def c4FenMy : String := "rnbqkbnr/pppp1ppp/8/4p3/4P3/8/PPPP1PPP/RNBQKBNR w KQkq - 0 2"

/-- State mid-game: the engine's suggestion e7e5 is both displayed and
stored as pending while the observed position is `c4FenOpp`. -/
def c4State : TitanState :=
  { initState with
    engineReady := true, hasWorker := true,
    currentFen := c4FenOpp,
    previousFen := "rnbqkbnr/pppppppp/8/8/8/8/PPPPPPPP/RNBQKBNR w KQkq - 0 1",
    arrows := ["e7e5"], pendingArrows := ["e7e5"] }

/-- C4 (code evaluated at the failing input): on a non-player-turn tick the
monitor calls `clearArrows`, and the `clearArrows` of
`src/unnamed/part_000` lines 1205-1208 resets `pendingArrows` together with
`arrows` — the pending result does NOT keep its value.  Consequently, on
the next player-turn tick there is nothing to promote: the displayed arrows
stay empty of the old move and a fresh primary search (`go depth 5`) is
issued instead. -/
theorem opp_turn_clear_wipes_pending :
    c4State.pendingArrows = ["e7e5"] ∧ c4State.arrows = ["e7e5"] ∧
    fenTurn c4FenOpp = "b" ∧
    (monitor c4State c4FenOpp "w").1.pendingArrows = [] ∧
    (monitor c4State c4FenOpp "w").1.arrows = [] ∧
    (monitor (monitor c4State c4FenOpp "w").1 c4FenMy "w").1.arrows ≠ ["e7e5"] ∧
    Eff.go 5 none ∈ (monitor (monitor c4State c4FenOpp "w").1 c4FenMy "w").2 := by
  refine ⟨rfl, rfl, rfl, by decide, by decide, by decide, by decide⟩
